import Mathlib

/-!
Verification of the Keccak-f[1600] step functions of this repository.

The definitions below are a shallow embedding of the Python sources:
src/python_testing/theta_step.py, rho_step.py, pi_step.py, chi_step.py and
src/verif/python_testing/iota_step.py.

Modelling conventions:
* A well-shaped 5x5 state of lanes becomes `State := Fin 5 → Fin 5 → Nat`;
  the nested Python loops that fill a fresh `result` grid become the
  function of the two coordinates that the loops compute.
* Python integers are unbounded, so lanes are `Nat`; every
  `& 0xFFFFFFFFFFFFFFFF` of the source is written `% 2 ^ 64`, which is the
  same operation on nonnegative integers.
* Python's `(x - 1) % 5`, `(x + 1) % 5`, `(x + 2) % 5` on coordinates in
  `0..4` are exactly subtraction/addition in `Fin 5`.
* Python's `~b` on an unbounded integer is `-(b+1)`, i.e. `Int.lnot`;
  `(~b) & c` is embedded through `Int.land`.
* For the error-handling claim the states are also modelled as
  `List (List Nat)` with `Option`-valued steps, where an out-of-range index
  access (Python `IndexError`) or a raised `ValueError` becomes `none`.
* Python `range(5)` is the list `[0, 1, 2, 3, 4]`.
-/

set_option maxRecDepth 40000

/-- A Keccak state: 25 lanes addressed by `(x, y)` with `x, y < 5`.
Lanes are nonnegative unbounded integers (Python ints); a well-formed state
keeps every lane below `2 ^ 64`. -/
abbrev State := Fin 5 → Fin 5 → Nat

/-- The all-zero state (`[[0]*5 for _ in range(5)]`). -/
def zeroState : State := fun _ _ => 0

/-- The single assignment `result[i][j] = v` into a grid. -/
def upd (r : State) (i j : Fin 5) (v : Nat) : State :=
  fun a b => if a = i ∧ b = j then v else r a b

/-- `rotl64` from src/python_testing/rho_step.py: rotate left in 64-bit
space.  The source first reduces the shift modulo 64, returns the value
masked to 64 bits on shift 0, and otherwise combines the masked left shift
with the right shift by `64 - shift`. -/
def rotl64 (value shift : Nat) : Nat :=
  let shift := shift % 64
  if shift = 0 then value % 2 ^ 64
  else ((value <<< shift) % 2 ^ 64) ||| (value >>> (64 - shift))

/-- The `OFFSETS` table of src/python_testing/rho_step.py, row by row.
The code reads it as `OFFSETS[x][y]`. -/
def OFFSETS : Fin 5 → Fin 5 → Nat :=
  ![![0, 36, 3, 41, 18],
    ![1, 44, 10, 45, 2],
    ![62, 6, 43, 15, 61],
    ![28, 55, 25, 21, 56],
    ![27, 20, 39, 8, 14]]

/-- `keccak_rho` of src/python_testing/rho_step.py:
`result[x][y] = rotl64(state[x][y], OFFSETS[x][y])`. -/
def keccak_rho (state : State) : State :=
  fun x y => rotl64 (state x y) (OFFSETS x y)

/-- The column parities of src/python_testing/theta_step.py:
`C = [state[x][0] ^ state[x][1] ^ state[x][2] ^ state[x][3] ^ state[x][4]]`. -/
def thetaC (state : State) (x : Fin 5) : Nat :=
  state x 0 ^^^ state x 1 ^^^ state x 2 ^^^ state x 3 ^^^ state x 4

/-- The `D[x]` values of src/python_testing/theta_step.py, with the inline
64-bit left rotation by one bit of the source:
`rot = ((C[xp1] << 1) & MASK) | (C[xp1] >> (64 - 1)); D[x] = C[xm1] ^ rot`. -/
def thetaD (state : State) (x : Fin 5) : Nat :=
  let xm1 := x - 1
  let xp1 := x + 1
  let rot := ((thetaC state xp1 <<< 1) % 2 ^ 64) ||| (thetaC state xp1 >>> (64 - 1))
  thetaC state xm1 ^^^ rot

/-- `keccak_theta` of src/python_testing/theta_step.py:
`result[x][y] = state[x][y] ^ D[x]`. -/
def keccak_theta (state : State) : State :=
  fun x y => state x y ^^^ thetaD state x

/-- `keccak_pi` of src/python_testing/pi_step.py.  The source fills a fresh
zero grid with `result[y][(2*x + 3*y) % 5] = state[x][y]` for `x` then `y`
in `range(5)`; the two loops become two folds performing those writes. -/
def keccak_pi (state : State) : State :=
  ([0, 1, 2, 3, 4] : List (Fin 5)).foldl
    (fun r x =>
      ([0, 1, 2, 3, 4] : List (Fin 5)).foldl
        (fun r y => upd r y (2 * x + 3 * y) (state x y)) r)
    zeroState

/-- The destination map of the pi step, read off the assignment
`result[y][(2*x + 3*y) % 5] = state[x][y]`: source position `(x, y)` is sent
to `(y, (2*x + 3*y) % 5)`. -/
def piDest : Fin 5 × Fin 5 → Fin 5 × Fin 5 :=
  fun p => (p.2, 2 * p.1 + 3 * p.2)

/-- Python's `(~b) & c` on unbounded integers, as in
src/python_testing/chi_step.py.  `~b` is the integer `-(b+1)`
(`Int.lnot`); the conjunction with the nonnegative `c` is `Int.land`.
The result is nonnegative, so it is returned as a `Nat`. -/
def pyNotAnd (b c : Nat) : Nat :=
  (Int.land (Int.lnot (b : Int)) (c : Int)).toNat

/-- `keccak_chi` of src/python_testing/chi_step.py:
`a = state[x][y]; b = state[(x+1) % 5][y]; c = state[(x+2) % 5][y];
result[x][y] = a ^ ((~b) & c)`. -/
def keccak_chi (state : State) : State :=
  fun x y =>
    let a := state x y
    let b := state (x + 1) y
    let c := state (x + 2) y
    a ^^^ pyNotAnd b c

/-- One pass of the loop body in `_calculate_rc` of
src/verif/python_testing/iota_step.py: split the 8-bit register into its
bits (most significant first), prepend a zero bit, XOR the feedback bit
(the old last bit) into positions 0, 4, 5 and 6, truncate back to eight
bits and reassemble the register. -/
def lfsrStep (R : Nat) : Nat :=
  let R_list := (List.range 8).map (fun i => (R >>> (7 - i)) &&& 1)
  let R9 := 0 :: R_list
  let feedback_bit := R9.getD 8 0
  let R9 := R9.set 0 (R9.getD 0 0 ^^^ feedback_bit)
  let R9 := R9.set 4 (R9.getD 4 0 ^^^ feedback_bit)
  let R9 := R9.set 5 (R9.getD 5 0 ^^^ feedback_bit)
  let R9 := R9.set 6 (R9.getD 6 0 ^^^ feedback_bit)
  let R_trunc := R9.take 8
  R_trunc.foldl (fun acc bit => (acc <<< 1) ||| bit) 0

/-- `_calculate_rc` of src/verif/python_testing/iota_step.py (Algorithm 5
of FIPS 202): return 1 when `t % 255 == 0`, otherwise run the LFSR loop
`t % 255` times starting from `0x80` and return the most significant bit. -/
def _calculate_rc (t : Nat) : Nat :=
  if t % 255 = 0 then 1
  else
    let R := (List.range (t % 255)).foldl (fun R _ => lfsrStep R) 0x80
    (R >>> 7) &&& 1

/-- `_get_round_constant` of src/verif/python_testing/iota_step.py
(Algorithm 6 of FIPS 202): for `j` in `0..6` set bit `2^j - 1` of the
accumulator when `rc(j + 7*i_r)` is 1; the source finally masks with
`MASK_64`. -/
def _get_round_constant (i_r : Nat) : Nat :=
  let l := 6
  let RC := (List.range (l + 1)).foldl (fun RC j =>
    let t := j + 7 * i_r
    let bit := _calculate_rc t
    if bit = 1 then RC ||| (1 <<< ((1 <<< j) - 1)) else RC) 0
  RC % 2 ^ 64

/-- `keccak_iota` of src/verif/python_testing/iota_step.py.  The source
copies the state, raises `ValueError` unless `0 <= round_index < 24`
(modelled as `none`), and otherwise XORs the round constant into lane
`(0, 0)`, masked to 64 bits.  `round_index` is an `Int` because Python
callers may pass negative indices. -/
def keccak_iota (state : State) (round_index : Int) : Option State :=
  if 0 ≤ round_index ∧ round_index < 24 then
    some (upd state 0 0
      ((state 0 0 ^^^ _get_round_constant round_index.toNat) % 2 ^ 64))
  else none

/-- Arithmetic twin of `lfsrStep`, used only to evaluate the LFSR inside
the kernel: dropping the last bit is a right shift, and when that bit was
set the feedback XORs hit bit positions 7, 3, 2 and 1, i.e. the mask
`0x8E`.  `lfsrStep_agree` proves the two agree on all 8-bit registers. -/
def lfsrStepA (R : Nat) : Nat := (R >>> 1) ^^^ ((R &&& 1) * 0x8E)

/-- `_calculate_rc` with the LFSR loop body replaced by its arithmetic
twin `lfsrStepA`. -/
def rcA (t : Nat) : Nat :=
  if t % 255 = 0 then 1
  else
    let R := (List.range (t % 255)).foldl (fun R _ => lfsrStepA R) 0x80
    (R >>> 7) &&& 1

/-- `_get_round_constant` with `_calculate_rc` replaced by `rcA`. -/
def rcConstA (i_r : Nat) : Nat :=
  let l := 6
  let RC := (List.range (l + 1)).foldl (fun RC j =>
    let t := j + 7 * i_r
    let bit := rcA t
    if bit = 1 then RC ||| (1 <<< ((1 <<< j) - 1)) else RC) 0
  RC % 2 ^ 64

/-- The published FIPS 202 round-constant table for Keccak-f[1600],
rounds 0 to 23 (the external reference the spec appeals to). -/
def RC_TABLE : Fin 24 → Nat :=
  ![0x0000000000000001,
    0x0000000000008082, 0x800000000000808a,
    0x8000000080008000, 0x000000000000808b,
    0x0000000080000001, 0x8000000080008081,
    0x8000000000008009, 0x000000000000008a,
    0x0000000000000088, 0x0000000080008009,
    0x000000008000000a, 0x000000008000808b,
    0x800000000000008b, 0x8000000000008089,
    0x8000000000008003, 0x8000000000008002,
    0x8000000000000080, 0x000000000000800a,
    0x800000008000000a, 0x8000000080008081,
    0x8000000000008080, 0x0000000080000001,
    0x8000000080008008]

/-- The rotation-offset table exactly as printed in section 4.3 of the
spec, indexed there as row `x`, column `y`. -/
def specRhoTable : Fin 5 → Fin 5 → Nat :=
  ![![0, 1, 62, 28, 27],
    ![36, 44, 6, 55, 20],
    ![3, 10, 43, 25, 39],
    ![41, 45, 15, 21, 8],
    ![18, 2, 61, 56, 14]]

/-- A state holding `0x1` in lane `(1, 0)` and zero elsewhere, as in the
example tests of the sources. -/
def ex1 : State := fun x y => if x = 1 ∧ y = 0 then 1 else 0

/-- The state all of whose lanes are `0xFFFFFFFFFFFFFFFF`. -/
def allFF : State := fun _ _ => 2 ^ 64 - 1

/-- Python indexing `s[x][y]` on a list-of-lists state: `none` models the
`IndexError` raised when either index is out of range. -/
def get2 (s : List (List Nat)) (x y : Nat) : Option Nat :=
  s[x]?.bind (fun row => row[y]?)

/-- Python assignment `s[x][y] = v` on a list-of-lists state (the indices
used below are always in range of the freshly built grids). -/
def set2 (s : List (List Nat)) (x y : Nat) (v : Nat) : List (List Nat) :=
  s.set x ((s.getD x []).set y v)

/-- The column parity of src/python_testing/theta_step.py on the list
model, reading the five lanes `state[x][0] .. state[x][4]`. -/
def colC (s : List (List Nat)) (x : Nat) : Option Nat := do
  let a ← get2 s x 0
  let b ← get2 s x 1
  let c ← get2 s x 2
  let d ← get2 s x 3
  let e ← get2 s x 4
  pure (a ^^^ b ^^^ c ^^^ d ^^^ e)

/-- `keccak_theta` on the list model, with Python's fallible indexing:
compute the five parities, the five `D[x]` (on coordinates `0..4` Python's
`(x - 1) % 5` is `(x + 4) % 5`), and XOR `D[x]` into every read lane. -/
def keccak_theta_list (s : List (List Nat)) : Option (List (List Nat)) := do
  let C ← ([0, 1, 2, 3, 4] : List Nat).mapM (colC s)
  let D := ([0, 1, 2, 3, 4] : List Nat).map (fun x =>
    let cp := C.getD ((x + 1) % 5) 0
    C.getD ((x + 4) % 5) 0 ^^^ (((cp <<< 1) % 2 ^ 64) ||| (cp >>> (64 - 1))))
  ([0, 1, 2, 3, 4] : List Nat).mapM (fun x =>
    ([0, 1, 2, 3, 4] : List Nat).mapM (fun y => do
      let v ← get2 s x y
      pure (v ^^^ D.getD x 0)))

/-- The `OFFSETS` literal of src/python_testing/rho_step.py as a list of
lists, for the list model. -/
def OFFSETS_L : List (List Nat) :=
  [[0, 36, 3, 41, 18],
   [1, 44, 10, 45, 2],
   [62, 6, 43, 15, 61],
   [28, 55, 25, 21, 56],
   [27, 20, 39, 8, 14]]

/-- `keccak_rho` on the list model with Python's fallible indexing. -/
def keccak_rho_list (s : List (List Nat)) : Option (List (List Nat)) :=
  ([0, 1, 2, 3, 4] : List Nat).mapM (fun x =>
    ([0, 1, 2, 3, 4] : List Nat).mapM (fun y => do
      let v ← get2 s x y
      pure (rotl64 v ((OFFSETS_L.getD x []).getD y 0))))

/-- The fresh `[[0]*5 for _ in range(5)]` grid. -/
def zero5x5 : List (List Nat) :=
  [[0, 0, 0, 0, 0], [0, 0, 0, 0, 0], [0, 0, 0, 0, 0], [0, 0, 0, 0, 0],
   [0, 0, 0, 0, 0]]

/-- `keccak_pi` on the list model: the writes
`result[y][(2*x + 3*y) % 5] = state[x][y]` into a fresh zero grid, with
Python's fallible reads. -/
def keccak_pi_list (s : List (List Nat)) : Option (List (List Nat)) :=
  ([0, 1, 2, 3, 4] : List Nat).foldlM
    (fun r x =>
      ([0, 1, 2, 3, 4] : List Nat).foldlM
        (fun r y => do
          let v ← get2 s x y
          pure (set2 r y ((2 * x + 3 * y) % 5) v)) r)
    zero5x5

/-- `keccak_chi` on the list model with Python's fallible indexing. -/
def keccak_chi_list (s : List (List Nat)) : Option (List (List Nat)) :=
  ([0, 1, 2, 3, 4] : List Nat).mapM (fun x =>
    ([0, 1, 2, 3, 4] : List Nat).mapM (fun y => do
      let a ← get2 s x y
      let b ← get2 s ((x + 1) % 5) y
      let c ← get2 s ((x + 2) % 5) y
      pure (a ^^^ pyNotAnd b c)))

/-- `keccak_iota` on the list model: the source copies every row as is,
raises `ValueError` for a round index outside `[0, 24)`, and then updates
`A_prime[0][0]`, which raises `IndexError` when that lane is missing. -/
def keccak_iota_list (s : List (List Nat)) (round_index : Int) :
    Option (List (List Nat)) :=
  if 0 ≤ round_index ∧ round_index < 24 then
    match get2 s 0 0 with
    | some a =>
        some (set2 s 0 0 ((a ^^^ _get_round_constant round_index.toNat) % 2 ^ 64))
    | none => none
  else none

/-- A 5-row state with six lanes per row: 30 lanes, not 25. -/
def s56 : List (List Nat) :=
  [[0, 0, 0, 0, 0, 0], [0, 0, 0, 0, 0, 0], [0, 0, 0, 0, 0, 0],
   [0, 0, 0, 0, 0, 0], [0, 0, 0, 0, 0, 0]]

/-- A 4-row state with five lanes per row: 20 lanes, not 25. -/
def s45 : List (List Nat) :=
  [[0, 0, 0, 0, 0], [0, 0, 0, 0, 0], [0, 0, 0, 0, 0], [0, 0, 0, 0, 0]]

/-! ## Helper lemmas -/

/-- The bit-list LFSR body agrees with its arithmetic twin on every 8-bit
register, and the twin stays within 8 bits. -/
theorem lfsrStep_agree :
    ∀ R : Fin 256, lfsrStep R.val = lfsrStepA R.val ∧ lfsrStepA R.val < 256 := by
  decide

/-- Folding two functions that agree on an invariant set gives equal
results when the invariant is preserved. -/
theorem foldl_congr_inv {α β : Type} (P : α → Prop) (f g : α → β → α)
    (l : List β) (a : α) (hPa : P a) (hfg : ∀ x b, P x → f x b = g x b)
    (hPf : ∀ x b, P x → P (g x b)) : l.foldl f a = l.foldl g a := by
  induction l generalizing a with
  | nil => rfl
  | cons hd tl ih =>
    simp only [List.foldl_cons]
    rw [hfg a hd hPa]
    exact ih (g a hd) (hPf a hd hPa)

/-- The LFSR fold may be computed with the arithmetic body. -/
theorem lfsr_foldl_eq (l : List Nat) (a : Nat) (ha : a < 256) :
    l.foldl (fun R _ => lfsrStep R) a = l.foldl (fun R _ => lfsrStepA R) a :=
  foldl_congr_inv (fun R => R < 256) (fun R _ => lfsrStep R)
    (fun R _ => lfsrStepA R) l a ha
    (fun x _ hx => (lfsrStep_agree ⟨x, hx⟩).1)
    (fun x _ hx => (lfsrStep_agree ⟨x, hx⟩).2)

/-- The source bit generator equals its arithmetic twin. -/
theorem calculate_rc_eq_rcA (t : Nat) : _calculate_rc t = rcA t := by
  simp only [_calculate_rc, rcA]
  rw [lfsr_foldl_eq _ 0x80 (by norm_num)]

/-- The source round-constant generator equals its arithmetic twin. -/
theorem get_round_constant_eq_A (i_r : Nat) :
    _get_round_constant i_r = rcConstA i_r := by
  simp only [_get_round_constant, rcConstA, calculate_rc_eq_rcA]

set_option maxHeartbeats 2000000 in
/-- The arithmetic round-constant generator reproduces the published
table. -/
theorem rcConstA_table : ∀ i : Fin 24, rcConstA i.val = RC_TABLE i := by
  decide

/-- The source round-constant generator reproduces the published table. -/
theorem rc_table : ∀ i : Fin 24, _get_round_constant i.val = RC_TABLE i :=
  fun i => (get_round_constant_eq_A i.val).trans (rcConstA_table i)

/-- Every published round constant fits in 64 bits. -/
theorem rc_table_lt : ∀ i : Fin 24, RC_TABLE i < 2 ^ 64 := by decide

/-- Python's `(~b) & c` on nonnegative integers is the set difference of
the bits of `c` and the bits of `b`. -/
theorem pyNotAnd_eq_ldiff (b c : Nat) : pyNotAnd b c = Nat.ldiff c b := rfl

/-- `(~b) & 0` is zero. -/
theorem pyNotAnd_zero (b : Nat) : pyNotAnd b 0 = 0 := by
  rw [pyNotAnd_eq_ldiff]
  refine Nat.eq_of_testBit_eq (fun k => ?_)
  simp [Nat.testBit_ldiff]

/-- On a 64-bit operand `c`, Python's `(~b) & c` coincides with the
64-bit bitwise complement of `b` (XOR against all ones) AND `c`. -/
theorem pyNotAnd_eq_mask (b c : Nat) (hc : c < 2 ^ 64) :
    pyNotAnd b c = ((2 ^ 64 - 1) ^^^ (b % 2 ^ 64)) &&& c := by
  rw [pyNotAnd_eq_ldiff]
  refine Nat.eq_of_testBit_eq (fun k => ?_)
  rw [Nat.testBit_ldiff, Nat.testBit_and, Nat.testBit_xor,
    Nat.testBit_mod_two_pow, Nat.testBit_two_pow_sub_one]
  by_cases hk : k < 64
  · cases hc' : c.testBit k <;> cases hb' : b.testBit k <;> simp [hk, hc', hb']
  · have hc' : c.testBit k = false :=
      Nat.testBit_lt_two_pow
        (lt_of_lt_of_le hc (Nat.pow_le_pow_right (by norm_num) (le_of_not_lt hk)))
    simp [hk, hc']

/-- The pi fold, evaluated: the lane landing at `(i, j)` came from
`((i + 3*j) % 5, i)`. -/
theorem pi_apply (A : State) (i j : Fin 5) :
    keccak_pi A i j = A (i + 3 * j) i := by
  fin_cases i <;> fin_cases j <;> simp +decide [keccak_pi, upd, zeroState]

/-- A right shift never increases a natural number. -/
theorem shiftRight_le_self (v k : Nat) : v >>> k ≤ v := by
  rw [Nat.shiftRight_eq_div_pow]
  exact Nat.div_le_self v (2 ^ k)

/-- `rotl64` keeps 64-bit values within 64 bits. -/
theorem rotl64_lt (v s : Nat) (hv : v < 2 ^ 64) : rotl64 v s < 2 ^ 64 := by
  simp only [rotl64]
  by_cases h : s % 64 = 0
  · simp only [h, if_true]
    exact Nat.mod_lt v (by norm_num)
  · simp only [h, if_false]
    exact Nat.or_lt_two_pow (Nat.mod_lt _ (by norm_num))
      (lt_of_le_of_lt (shiftRight_le_self v _) hv)

/-- The column parities of a 64-bit state fit in 64 bits. -/
theorem thetaC_lt (A : State) (h : ∀ x y, A x y < 2 ^ 64) (x : Fin 5) :
    thetaC A x < 2 ^ 64 :=
  Nat.xor_lt_two_pow
    (Nat.xor_lt_two_pow
      (Nat.xor_lt_two_pow (Nat.xor_lt_two_pow (h x 0) (h x 1)) (h x 2))
      (h x 3))
    (h x 4)

/-- The `D[x]` values of a 64-bit state fit in 64 bits. -/
theorem thetaD_lt (A : State) (h : ∀ x y, A x y < 2 ^ 64) (x : Fin 5) :
    thetaD A x < 2 ^ 64 :=
  Nat.xor_lt_two_pow (thetaC_lt A h _)
    (Nat.or_lt_two_pow (Nat.mod_lt _ (by norm_num))
      (lt_of_le_of_lt (shiftRight_le_self _ _) (thetaC_lt A h _)))

/-! ## Claims -/

/-- C1 counterexample: the claim reads the rotation offset for lane
(x, y) from the spec table at row x, column y.  On the state with lane
(1, 0) = 1, keccak_rho rotates that lane by the code offset 1 (giving 2),
not by the spec table entry at row 1, column 0, which is 36 (giving 2^36). -/
theorem c1_rho_spec_table_counterexample :
    keccak_rho ex1 1 0 ≠ rotl64 (ex1 1 0) (specRhoTable 1 0) := by decide

/-- C1 amended: keccak_rho rotates the lane at (x, y) left by the entry of
the spec section 4.3 table at row y, column x — the transpose of the
claimed indexing.  In particular the offsets actually applied are 36 at
(0, 1), 1 at (1, 0) and 3 at (0, 2), matching the canonical FIPS 202
offsets. -/
theorem c1_rho_offsets :
    (∀ (A : State) (x y : Fin 5),
      keccak_rho A x y = rotl64 (A x y) (specRhoTable y x)) ∧
    OFFSETS 0 1 = 36 ∧ OFFSETS 1 0 = 1 ∧ OFFSETS 0 2 = 3 := by
  have h : ∀ x y : Fin 5, OFFSETS x y = specRhoTable y x := by decide
  refine ⟨fun A x y => ?_, by decide, by decide, by decide⟩
  show rotl64 (A x y) (OFFSETS x y) = _
  rw [h x y]

/-- C2 counterexample: the round constant for round 23 is not the value
0x8000000000008008 stated by the claim (bit 31 is missing there). -/
theorem c2_round_constant_counterexample :
    _get_round_constant 23 ≠ 0x8000000000008008 := by
  rw [get_round_constant_eq_A]
  decide

/-- C2 amended: for every round index in [0, 23] the generator matches
the published FIPS 202 round-constant table; the spot values are
rc(0) = 0x0000000000000001, rc(1) = 0x0000000000008082 and
rc(23) = 0x8000000080008008. -/
theorem c2_round_constants :
    (∀ i : Fin 24, _get_round_constant i.val = RC_TABLE i) ∧
    _get_round_constant 0 = 0x0000000000000001 ∧
    _get_round_constant 1 = 0x0000000000008082 ∧
    _get_round_constant 23 = 0x8000000080008008 := by
  refine ⟨rc_table, ?_, ?_, ?_⟩ <;> (rw [get_round_constant_eq_A]; decide)

/-- C3 counterexample: a state supplying a single lane — not 25 — is
accepted by the iota step, which returns a fully computed state instead of
failing with an InvalidStateShape error. -/
theorem c3_shape_counterexample : keccak_iota_list [[0]] 0 = some [[1]] := by
  decide

/-- C3 amended: no step checks that the input supplies exactly 25 lanes and
no InvalidStateShape error exists.  A 30-lane state (five rows of six) is
accepted by every step: theta, rho, pi and chi read only the positions with
x, y < 5 and return a 5x5 state, while iota passes the extra lanes through.
A step fails (an IndexError, modelled as none) only when a lane it actually
reads is missing, as theta and chi do on a 4-row state. -/
theorem c3_no_shape_check :
    keccak_theta_list s56 = some zero5x5 ∧
    keccak_rho_list s56 = some zero5x5 ∧
    keccak_pi_list s56 = some zero5x5 ∧
    keccak_chi_list s56 = some zero5x5 ∧
    keccak_iota_list s56 0 =
      some [[1, 0, 0, 0, 0, 0], [0, 0, 0, 0, 0, 0], [0, 0, 0, 0, 0, 0],
            [0, 0, 0, 0, 0, 0], [0, 0, 0, 0, 0, 0]] ∧
    keccak_theta_list s45 = none ∧
    keccak_chi_list s45 = none := by
  refine ⟨by decide, by decide, by decide, ?_, by decide, by decide, by decide⟩
  simp [keccak_chi_list, get2, s56, zero5x5, pyNotAnd_zero, List.mapM,
    List.mapM.loop]

/-- C4: keccak_theta XORs every lane (x, y) with
D[x] = C[(x-1) mod 5] XOR rotateLeft(C[(x+1) mod 5], 1), where C is the
column parity of the original input state, and theta maps the all-zero
state to itself. -/
theorem c4_theta :
    (∀ (A : State) (x y : Fin 5),
      keccak_theta A x y =
        A x y ^^^ (thetaC A (x - 1) ^^^ rotl64 (thetaC A (x + 1)) 1)) ∧
    keccak_theta zeroState = zeroState := by
  constructor
  · intro A x y
    have hrot : rotl64 (thetaC A (x + 1)) 1 =
        ((thetaC A (x + 1) <<< 1) % 2 ^ 64) ||| (thetaC A (x + 1) >>> (64 - 1)) := by
      simp [rotl64]
    rw [hrot]
    rfl
  · funext x y
    simp [keccak_theta, thetaD, thetaC, zeroState]

/-- C5: on 64-bit states keccak_chi computes
state[x][y] XOR ((NOT state[(x+1) mod 5][y]) AND state[(x+2) mod 5][y])
with NOT the full 64-bit complement, and chi leaves a row of all-ones
lanes unchanged. -/
theorem c5_chi : ∀ A : State,
    ((∀ x y, A x y < 2 ^ 64) →
      ∀ x y, keccak_chi A x y =
        A x y ^^^ (((2 ^ 64 - 1) ^^^ A (x + 1) y) &&& A (x + 2) y)) ∧
    (∀ y, (∀ x, A x y = 2 ^ 64 - 1) → ∀ x, keccak_chi A x y = A x y) := by
  intro A
  constructor
  · intro h x y
    show A x y ^^^ pyNotAnd (A (x + 1) y) (A (x + 2) y) = _
    rw [pyNotAnd_eq_mask _ _ (h (x + 2) y), Nat.mod_eq_of_lt (h (x + 1) y)]
  · intro y hy x
    show A x y ^^^ pyNotAnd (A (x + 1) y) (A (x + 2) y) = A x y
    rw [hy (x + 1), hy (x + 2), pyNotAnd_eq_mask _ _ (by norm_num),
      Nat.mod_eq_of_lt (by norm_num)]
    simp

/-- C5 witness: chi on the all-ones state fixes lane (0, 0). -/
theorem c5_chi_witness : keccak_chi allFF 0 0 = allFF 0 0 :=
  (c5_chi allFF).2 0 (fun _ => rfl) 0

/-- C6: keccak_pi moves the lane at source (x, y) to destination
(y, (2x + 3y) mod 5), and that destination map is a bijection of the 25
positions. -/
theorem c6_pi :
    (∀ (A : State) (x y : Fin 5), keccak_pi A y (2 * x + 3 * y) = A x y) ∧
    Function.Bijective piDest := by
  have h : ∀ x y : Fin 5, y + 3 * (2 * x + 3 * y) = x := by decide
  refine ⟨fun A x y => ?_, by decide⟩
  rw [pi_apply, h x y]

/-- C7: for a 64-bit state and a round index in [0, 23], keccak_iota
returns a state whose lane (0, 0) is the input lane XOR the round
constant, every other lane unchanged. -/
theorem c7_iota : ∀ (A : State) (r : Int), (∀ x y, A x y < 2 ^ 64) →
    0 ≤ r → r ≤ 23 →
    ∃ B, keccak_iota A r = some B ∧
      B 0 0 = A 0 0 ^^^ _get_round_constant r.toNat ∧
      ∀ x y : Fin 5, ¬(x = 0 ∧ y = 0) → B x y = A x y := by
  intro A r h64 hr0 hr23
  have hcond : 0 ≤ r ∧ r < 24 := ⟨hr0, by omega⟩
  have ht : r.toNat < 24 := by omega
  have hrc : _get_round_constant r.toNat < 2 ^ 64 := by
    have h2 : _get_round_constant r.toNat = RC_TABLE ⟨r.toNat, ht⟩ :=
      rc_table ⟨r.toNat, ht⟩
    rw [h2]
    exact rc_table_lt _
  refine ⟨upd A 0 0 ((A 0 0 ^^^ _get_round_constant r.toNat) % 2 ^ 64),
    ?_, ?_, ?_⟩
  · simp [keccak_iota, hcond]
  · simp [upd, Nat.mod_eq_of_lt (Nat.xor_lt_two_pow (h64 0 0) hrc)]
  · intro x y hxy
    simp [upd, hxy]

/-- C7 witness: iota at round 0 on the all-zero state. -/
theorem c7_iota_witness :
    ∃ B, keccak_iota zeroState 0 = some B ∧
      B 0 0 = zeroState 0 0 ^^^ _get_round_constant (0 : Int).toNat ∧
      ∀ x y : Fin 5, ¬(x = 0 ∧ y = 0) → B x y = zeroState x y :=
  c7_iota zeroState 0 (fun _ _ => by norm_num [zeroState]) (by norm_num)
    (by norm_num)

/-- C8: keccak_iota fails (returns no state) exactly when the round index,
negative indices included, lies outside [0, 23]. -/
theorem c8_iota_range : ∀ (A : State) (r : Int),
    keccak_iota A r = none ↔ ¬(0 ≤ r ∧ r ≤ 23) := by
  intro A r
  simp only [keccak_iota]
  by_cases h : 0 ≤ r ∧ r < 24 <;> simp [h] <;> omega

/-- C9: rotl64 first reduces the shift modulo 64, so it is total, agrees
with itself at reduced shifts, fixes 64-bit values at shifts 0 and 64,
sends 1 shifted by 1 to 2 and 1 shifted by 63 to 2^63. -/
theorem c9_rotl64 : ∀ v s : Nat, v < 2 ^ 64 →
    (rotl64 v s = rotl64 v (s % 64) ∧ rotl64 v 0 = v ∧ rotl64 v 64 = v) ∧
    rotl64 1 1 = 2 ∧ rotl64 1 63 = 0x8000000000000000 := by
  intro v s hv
  refine ⟨⟨?_, ?_, ?_⟩, by decide, by decide⟩
  · simp only [rotl64]
    rw [Nat.mod_mod_of_dvd s (dvd_refl 64)]
  · show v % 2 ^ 64 = v
    exact Nat.mod_eq_of_lt hv
  · show v % 2 ^ 64 = v
    exact Nat.mod_eq_of_lt hv

/-- C9 witness: the rotation facts at v = 1, s = 64. -/
theorem c9_rotl64_witness :
    (rotl64 1 64 = rotl64 1 (64 % 64) ∧ rotl64 1 0 = 1 ∧ rotl64 1 64 = 1) ∧
    rotl64 1 1 = 2 ∧ rotl64 1 63 = 0x8000000000000000 :=
  c9_rotl64 1 64 (by norm_num)

/-- C10: every step maps a state of 64-bit lanes to a state of 64-bit
lanes; for iota this holds for every successfully produced state. -/
theorem c10_lane_range : ∀ A : State, (∀ x y, A x y < 2 ^ 64) →
    (∀ x y, keccak_theta A x y < 2 ^ 64) ∧
    (∀ x y, keccak_rho A x y < 2 ^ 64) ∧
    (∀ x y, keccak_pi A x y < 2 ^ 64) ∧
    (∀ x y, keccak_chi A x y < 2 ^ 64) ∧
    (∀ (r : Int) (B : State), keccak_iota A r = some B →
      ∀ x y, B x y < 2 ^ 64) := by
  intro A h
  refine ⟨fun x y => ?_, fun x y => ?_, fun x y => ?_, fun x y => ?_, ?_⟩
  · exact Nat.xor_lt_two_pow (h x y) (thetaD_lt A h x)
  · exact rotl64_lt _ _ (h x y)
  · rw [pi_apply]
    exact h _ _
  · show A x y ^^^ pyNotAnd (A (x + 1) y) (A (x + 2) y) < 2 ^ 64
    rw [pyNotAnd_eq_mask _ _ (h (x + 2) y)]
    exact Nat.xor_lt_two_pow (h x y)
      (lt_of_le_of_lt Nat.and_le_right (h (x + 2) y))
  · intro r B hB x y
    by_cases hc : 0 ≤ r ∧ r < 24
    · simp only [keccak_iota, hc, if_true] at hB
      have hB' := Option.some.inj hB
      by_cases hxy : x = 0 ∧ y = 0
      · obtain ⟨hx, hy⟩ := hxy
        subst hx
        subst hy
        have hv : upd A 0 0 ((A 0 0 ^^^ _get_round_constant r.toNat) % 2 ^ 64) 0 0 =
            (A 0 0 ^^^ _get_round_constant r.toNat) % 2 ^ 64 := by
          simp [upd]
        rw [← hB', hv]
        exact Nat.mod_lt _ (by norm_num)
      · have hv : upd A 0 0 ((A 0 0 ^^^ _get_round_constant r.toNat) % 2 ^ 64) x y =
            A x y := by
          simp [upd, hxy]
        rw [← hB', hv]
        exact h x y
    · simp only [keccak_iota, hc, if_false] at hB
      exact absurd hB (by simp)

/-- C10 witness: the range bound instantiated on the all-zero state. -/
theorem c10_lane_range_witness : keccak_theta zeroState 0 0 < 2 ^ 64 :=
  (c10_lane_range zeroState (fun _ _ => by norm_num [zeroState])).1 0 0
